import Mathlib

/-!
Verification of the Book_Management catalog core: the data model of
src/books/models.py (Category, Author, Book, their many-to-many link rows and
the admin LogEntry audit rows), the delete guards of src/books/admin.py, the
transactional delete/bulk-delete of src/books/models.py, the REST delete views
of src/books/views.py and the validators of src/books/serializers.py, as a
shallow embedding over explicit database states.
-/

namespace BookMgmt

/-- A row of the Category table (src/books/models.py, class Category): the
fields the verified operations read. -/
structure CategoryRow where
  id : Nat
  name : String
deriving DecidableEq

/-- A row of the Author table (src/books/models.py, class Author): the email is
optional (null=True). -/
structure AuthorRow where
  id : Nat
  email : Option String
deriving DecidableEq

/-- A row of the Book table (src/books/models.py, class Book): the fields the
verified operations read. category is a required foreign key declared with
on_delete=PROTECT. -/
structure BookRow where
  id : Nat
  title : String
  isbn : String
  categoryId : Nat
  stock_quantity : Nat
deriving DecidableEq

/-- A row of the many-to-many join table behind Book.authors. -/
structure AuthorLink where
  bookId : Nat
  authorId : Nat
deriving DecidableEq

/-- A django.contrib.admin LogEntry audit row, keyed by content type and the
stringified object id, as filtered in Book.delete / Book.bulk_delete. -/
structure LogEntryRow where
  contentType : String
  objectId : String
deriving DecidableEq

/-- The database state the verified operations act on. -/
structure DB where
  categories : List CategoryRow
  authors : List AuthorRow
  books : List BookRow
  bookAuthors : List AuthorLink
  logEntries : List LogEntryRow
deriving DecidableEq

/-- obj.books.count() on a Category: the number of Book rows whose foreign key
references the category (related_name=books on Book.category). -/
def countReferencing (db : DB) (cid : Nat) : Nat :=
  (db.books.filter (fun b => b.categoryId == cid)).length

/-- obj.books.exists() on a Category: whether some Book row references it. -/
def booksExist (db : DB) (cid : Nat) : Bool :=
  db.books.any (fun b => b.categoryId == cid)

/-- CategoryAdmin.has_delete_permission (src/books/admin.py): with a concrete
object, deletion is permitted exactly when obj.books.count() == 0; with no
object (the changelist page) it returns True. -/
def has_delete_permission (db : DB) (obj : Option CategoryRow) : Bool :=
  match obj with
  | some c => countReferencing db c.id == 0
  | none => true

/-- Removal of one Category row by id (obj.delete() on a Category, which has no
cascading dependents once no book references it). -/
def deleteCategoryRow (db : DB) (cid : Nat) : DB :=
  { db with categories := db.categories.filter (fun c => !(c.id == cid)) }

/-- Outcome of an admin delete action: done, or blocked with the message passed
to message_user at level ERROR. -/
inductive AdminOutcome where
  | done
  | blocked (msg : String)
deriving DecidableEq

/-- CategoryAdmin.delete_model (src/books/admin.py): if obj.books.exists() the
deletion is refused and message_user receives an ERROR message quoting the name
and obj.books.count(); otherwise the row is deleted. -/
def category_delete_model (db : DB) (obj : CategoryRow) : AdminOutcome × DB :=
  if booksExist db obj.id then
    (AdminOutcome.blocked
      ("Cannot delete category '" ++ obj.name ++ "' because it has " ++
        toString (countReferencing db obj.id) ++ " books associated with it."),
     db)
  else
    (AdminOutcome.done, deleteCategoryRow db obj.id)

theorem booksExist_iff_countReferencing_pos (db : DB) (cid : Nat) :
    booksExist db cid = true ↔ 0 < countReferencing db cid := by
  unfold booksExist countReferencing
  rw [← List.countP_eq_length_filter, List.countP_pos_iff, List.any_eq_true]

/-- C1. The Category delete guard permits deletion iff no Book references the
category (has_delete_permission on a concrete object; True with none); and when
delete_model blocks, the state is unchanged and the ERROR message mentions the
referencing-book count. -/
theorem canDelete_category_iff_zero_refs (db : DB) (c : CategoryRow) :
    (has_delete_permission db (some c) = true ↔ countReferencing db c.id = 0) ∧
    (has_delete_permission db none = true) ∧
    (countReferencing db c.id = 0 →
      category_delete_model db c = (AdminOutcome.done, deleteCategoryRow db c.id)) ∧
    (0 < countReferencing db c.id →
      (category_delete_model db c).2 = db ∧
      ∃ pre post, (category_delete_model db c).1 =
        AdminOutcome.blocked (pre ++ toString (countReferencing db c.id) ++ post)) := by
  refine ⟨by simp [has_delete_permission], rfl, ?_, ?_⟩
  · intro h0
    have hb : booksExist db c.id = false := by
      by_contra hb
      have := (booksExist_iff_countReferencing_pos db c.id).mp
        (by revert hb; cases booksExist db c.id <;> simp)
      omega
    simp [category_delete_model, hb]
  · intro hpos
    have hb : booksExist db c.id = true :=
      (booksExist_iff_countReferencing_pos db c.id).mpr hpos
    refine ⟨by simp [category_delete_model, hb], ?_⟩
    refine ⟨"Cannot delete category '" ++ c.name ++ "' because it has ",
      " books associated with it.", ?_⟩
    simp [category_delete_model, hb]

theorem booksExist_eq_false_iff (db : DB) (cid : Nat) :
    booksExist db cid = false ↔ countReferencing db cid = 0 := by
  rw [← Bool.not_eq_true, booksExist_iff_countReferencing_pos]
  omega

/-- CategoryAdmin.delete_selected (src/books/admin.py): one pass partitions the
queryset into deletable (no referencing books) and undeletable, then the rows
whose id is among the deletable ids are deleted; the undeletable ones are
reported back. Returned as (new state, deletable, undeletable). -/
def category_delete_selected (db : DB) (queryset : List CategoryRow) :
    DB × List CategoryRow × List CategoryRow :=
  let deletable := queryset.filter (fun c => !(booksExist db c.id))
  let undeletable := queryset.filter (fun c => booksExist db c.id)
  let remaining :=
    db.categories.filter (fun c => !((deletable.map (fun d => d.id)).contains c.id))
  ({ db with categories := remaining }, deletable, undeletable)

/-- Outcome of a DELETE request on the REST detail views. -/
inductive ApiDeleteResult where
  | noContent
  | notFound
  | storeFKError
deriving DecidableEq

/-- Category.objects lookup by primary key, as the detail view resolves its
object. -/
def findCategory (db : DB) (cid : Nat) : Option CategoryRow :=
  db.categories.find? (fun c => c.id == cid)

/-- Modelled from the spec: CategoryDetailView (src/books/views.py) adds no
destroy logic of its own, so DELETE runs the framework's generic destroy —
resolve the object (404 when absent) then delete the row — and the store
enforces the on_delete=PROTECT declaration of Book.category
(src/books/models.py): a Category row still referenced by Book rows is not
deleted and the attempt surfaces as a ProtectedError, a storage foreign-key
error, not as a checked, data-level block. -/
def apiDeleteCategory (db : DB) (cid : Nat) : ApiDeleteResult × DB :=
  match findCategory db cid with
  | none => (ApiDeleteResult.notFound, db)
  | some _ =>
    if booksExist db cid then (ApiDeleteResult.storeFKError, db)
    else (ApiDeleteResult.noContent, deleteCategoryRow db cid)

theorem mem_deletable_ids (db : DB) (qs : List CategoryRow) (x : Nat) :
    ((qs.filter (fun c => !(booksExist db c.id))).map (fun d => d.id)).contains x
      = true ↔ ∃ d ∈ qs, booksExist db d.id = false ∧ d.id = x := by
  simp only [List.contains_eq_any_beq, List.any_eq_true, List.mem_map,
    List.mem_filter, Bool.not_eq_true', beq_iff_eq]
  constructor
  · rintro ⟨y, ⟨d, ⟨hd, hbf⟩, rfl⟩, hxy⟩
    exact ⟨d, hd, hbf, hxy.symm⟩
  · rintro ⟨d, hd, hbf, rfl⟩
    exact ⟨d.id, ⟨d, ⟨hd, hbf⟩, rfl⟩, rfl⟩

/-- A Category that some Book still references survives the bulk delete
whatever the selected queryset is: its id can never be among the deletable
ids. -/
theorem referenced_category_survives_bulk (db : DB) (qs : List CategoryRow)
    (c : CategoryRow) (hb : booksExist db c.id = true) (hdb : c ∈ db.categories) :
    c ∈ (category_delete_selected db qs).1.categories := by
  simp only [category_delete_selected]
  refine List.mem_filter.mpr ⟨hdb, ?_⟩
  rw [Bool.not_eq_true']
  rw [← Bool.not_eq_true, mem_deletable_ids]
  rintro ⟨d, _, hbf, hdid⟩
  rw [hdid, hb] at hbf
  simp at hbf

/-- C5. Bulk deletion of Categories partitions the batch per item: a Category
with zero referencing books lands in the deletable list and its row is gone
from the resulting state, one with referencing books lands in the undeletable
list and its row survives; each item is judged by its own referencing count
only, so a blocked item never prevents the others from being deleted. -/
theorem category_bulk_delete_partition (db : DB) (qs : List CategoryRow)
    (c : CategoryRow) :
    (c ∈ qs ∧ countReferencing db c.id = 0 →
      c ∈ (category_delete_selected db qs).2.1 ∧
      ∀ c' ∈ (category_delete_selected db qs).1.categories, c'.id ≠ c.id) ∧
    (c ∈ qs ∧ 0 < countReferencing db c.id →
      c ∈ (category_delete_selected db qs).2.2 ∧
      (c ∈ db.categories → c ∈ (category_delete_selected db qs).1.categories)) := by
  constructor
  · rintro ⟨hqs, h0⟩
    have hb : booksExist db c.id = false := (booksExist_eq_false_iff db c.id).mpr h0
    simp only [category_delete_selected]
    refine ⟨List.mem_filter.mpr ⟨hqs, by simp [hb]⟩, ?_⟩
    intro c' hc' heq
    have h2 := (List.mem_filter.mp hc').2
    rw [Bool.not_eq_true'] at h2
    rw [← Bool.not_eq_true, mem_deletable_ids] at h2
    exact h2 ⟨c, hqs, hb, heq.symm⟩
  · rintro ⟨hqs, hpos⟩
    have hb : booksExist db c.id = true :=
      (booksExist_iff_countReferencing_pos db c.id).mpr hpos
    refine ⟨?_, fun hdb => referenced_category_survives_bulk db qs c hb hdb⟩
    simp only [category_delete_selected]
    exact List.mem_filter.mpr ⟨hqs, by simp [hb]⟩

/-- C2 (amended). While Books reference a Category, its row survives every
delete path; the admin single and bulk paths block via the explicit
referencing check and report the block as data, while the REST detail view,
which has no such check, is stopped only by the PROTECT foreign-key
constraint and surfaces a storage foreign-key error. -/
theorem category_delete_blocked_all_paths (db : DB) (c : CategoryRow)
    (h : 0 < countReferencing db c.id) :
    ((category_delete_model db c).2 = db ∧
      ∃ msg, (category_delete_model db c).1 = AdminOutcome.blocked msg) ∧
    (∀ qs, (c ∈ db.categories → c ∈ (category_delete_selected db qs).1.categories) ∧
      (c ∈ qs → c ∈ (category_delete_selected db qs).2.2)) ∧
    ((apiDeleteCategory db c.id).2 = db ∧
      (c ∈ db.categories →
        (apiDeleteCategory db c.id).1 = ApiDeleteResult.storeFKError)) := by
  have hb : booksExist db c.id = true :=
    (booksExist_iff_countReferencing_pos db c.id).mpr h
  have hcm : category_delete_model db c =
      (AdminOutcome.blocked
        ("Cannot delete category '" ++ c.name ++ "' because it has " ++
          toString (countReferencing db c.id) ++ " books associated with it."),
       db) := by
    unfold category_delete_model
    rw [if_pos hb]
  refine ⟨⟨by rw [hcm], ⟨_, by rw [hcm]⟩⟩, ?_, ?_⟩
  · intro qs
    exact ⟨fun hdb => referenced_category_survives_bulk db qs c hb hdb,
      fun hqs => ((category_bulk_delete_partition db qs c).2 ⟨hqs, h⟩).1⟩
  · constructor
    · unfold apiDeleteCategory
      cases findCategory db c.id with
      | none => rfl
      | some x => simp [hb]
    · intro hdb
      have hfind : findCategory db c.id ≠ none := by
        intro hnone
        have := List.find?_eq_none.mp hnone c hdb
        simp at this
      unfold apiDeleteCategory
      cases hx : findCategory db c.id with
      | none => exact absurd hx hfind
      | some x => simp [hb]

/-- Book.delete, step 1 (src/books/models.py): delete the LogEntry rows whose
content type is the Book model and whose object_id is str(pk). -/
def purgeBookLogEntries (db : DB) (pk : Nat) : DB :=
  let kept := db.logEntries.filter
    (fun e => !(e.contentType == "book" && e.objectId == toString pk))
  { db with logEntries := kept }

/-- Book.delete, step 2: authors.clear() removes the book's many-to-many author
link rows. -/
def clearBookAuthors (db : DB) (pk : Nat) : DB :=
  { db with bookAuthors := db.bookAuthors.filter (fun l => !(l.bookId == pk)) }

/-- Book.delete, step 3: the Book row itself is removed. -/
def deleteBookRow (db : DB) (pk : Nat) : DB :=
  { db with books := db.books.filter (fun b => !(b.id == pk)) }

/-- The three steps of Book.delete, in source order. -/
def bookDeleteSteps (pk : Nat) : List (DB → DB) :=
  [fun db => purgeBookLogEntries db pk,
   fun db => clearBookAuthors db pk,
   fun db => deleteBookRow db pk]

/-- Sequential execution of a list of state transformers. -/
def applySteps : List (DB → DB) → DB → DB
  | [], db => db
  | f :: fs, db => applySteps fs (f db)

/-- Modelled from the spec: transaction.atomic is the Entity Store's
transactional boundary. When a fault interrupts the sequence after any number
of completed steps the whole transaction rolls back, so the observable state
is the initial one; with no fault every step commits. -/
def runAtomic (steps : List (DB → DB)) (fault : Option Nat) (db : DB) : DB :=
  match fault with
  | some _ => db
  | none => applySteps steps db

/-- Book.delete (src/books/models.py): inside transaction.atomic, purge the
book's LogEntry audit rows, clear its author links, then delete the row. -/
def book_delete (db : DB) (pk : Nat) (fault : Option Nat) : DB :=
  runAtomic (bookDeleteSteps pk) fault db

/-- Book.bulk_delete (src/books/models.py): inside transaction.atomic, for each
selected book first delete its LogEntry rows and clear its author links, then a
single queryset.delete() removes all the selected rows. -/
def bulkDeleteSteps (pks : List Nat) : List (DB → DB) :=
  pks.map (fun pk => fun db => clearBookAuthors (purgeBookLogEntries db pk) pk) ++
  [fun db =>
    let kept := db.books.filter (fun b => !(pks.contains b.id))
    { db with books := kept }]

/-- Book.bulk_delete as invoked by BookAdmin.delete_selected
(src/books/admin.py), with the transactional fault model of runAtomic. -/
def bulk_delete (db : DB) (pks : List Nat) (fault : Option Nat) : DB :=
  runAtomic (bulkDeleteSteps pks) fault db

/-- C3. With no fault, Book.delete is exactly the composition purge audit rows,
then clear author links, then drop the row: afterwards no audit row keyed
(book, pk) and no author link of pk survives, the book row is gone, everything
else is untouched; a fault at any point leaves the initial state observable, so
no partial state ever is. -/
theorem book_delete_atomic_spec (db : DB) (pk : Nat) :
    (book_delete db pk none =
      deleteBookRow (clearBookAuthors (purgeBookLogEntries db pk) pk) pk) ∧
    (∀ e, e ∈ (book_delete db pk none).logEntries ↔
      e ∈ db.logEntries ∧ ¬(e.contentType = "book" ∧ e.objectId = toString pk)) ∧
    (∀ l, l ∈ (book_delete db pk none).bookAuthors ↔
      l ∈ db.bookAuthors ∧ l.bookId ≠ pk) ∧
    (∀ b, b ∈ (book_delete db pk none).books ↔ b ∈ db.books ∧ b.id ≠ pk) ∧
    ((book_delete db pk none).categories = db.categories ∧
      (book_delete db pk none).authors = db.authors) ∧
    (∀ k, book_delete db pk (some k) = db) := by
  refine ⟨rfl, ?_, ?_, ?_, ⟨rfl, rfl⟩, fun k => rfl⟩
  · intro e
    simp [book_delete, runAtomic, bookDeleteSteps, applySteps, purgeBookLogEntries,
      clearBookAuthors, deleteBookRow, List.mem_filter]
    tauto
  · intro l
    simp [book_delete, runAtomic, bookDeleteSteps, applySteps, purgeBookLogEntries,
      clearBookAuthors, deleteBookRow, List.mem_filter]
  · intro b
    simp [book_delete, runAtomic, bookDeleteSteps, applySteps, purgeBookLogEntries,
      clearBookAuthors, deleteBookRow, List.mem_filter]

theorem applySteps_append (l1 l2 : List (DB → DB)) (db : DB) :
    applySteps (l1 ++ l2) db = applySteps l2 (applySteps l1 db) := by
  induction l1 generalizing db with
  | nil => rfl
  | cons f fs ih => simp [applySteps, ih]

/-- Abbreviation for the cleanup pass of bulk_delete. -/
def cleanupSteps (pks : List Nat) : List (DB → DB) :=
  pks.map (fun pk => fun db => clearBookAuthors (purgeBookLogEntries db pk) pk)

theorem cleanup_books_eq (pks : List Nat) (db : DB) :
    (applySteps (cleanupSteps pks) db).books = db.books ∧
    (applySteps (cleanupSteps pks) db).categories = db.categories ∧
    (applySteps (cleanupSteps pks) db).authors = db.authors := by
  induction pks generalizing db with
  | nil => exact ⟨rfl, rfl, rfl⟩
  | cons pk pks ih =>
    simpa [cleanupSteps, applySteps, clearBookAuthors, purgeBookLogEntries]
      using ih _

theorem cleanup_logEntries_mem (pks : List Nat) (db : DB) (e : LogEntryRow) :
    e ∈ (applySteps (cleanupSteps pks) db).logEntries ↔
      e ∈ db.logEntries ∧
        ∀ pk ∈ pks, ¬(e.contentType = "book" ∧ e.objectId = toString pk) := by
  induction pks generalizing db with
  | nil => simp [cleanupSteps, applySteps]
  | cons pk pks ih =>
    simp only [cleanupSteps, List.map_cons, applySteps] at ih ⊢
    rw [ih]
    simp [clearBookAuthors, purgeBookLogEntries, List.mem_filter]
    tauto

theorem cleanup_bookAuthors_mem (pks : List Nat) (db : DB) (l : AuthorLink) :
    l ∈ (applySteps (cleanupSteps pks) db).bookAuthors ↔
      l ∈ db.bookAuthors ∧ l.bookId ∉ pks := by
  induction pks generalizing db with
  | nil => simp [cleanupSteps, applySteps]
  | cons pk pks ih =>
    simp only [cleanupSteps, List.map_cons, applySteps] at ih ⊢
    rw [ih]
    simp [clearBookAuthors, purgeBookLogEntries, List.mem_filter]
    tauto

/-- C4. With no fault, bulk deletion treats every selected Book as eligible:
afterwards exactly the books whose id was selected are gone, their audit rows
and author links are purged, and nothing else changes; a fault anywhere rolls
the whole batch back, so either the whole batch with its cleanup commits or
none of it does. -/
theorem bulk_delete_books_spec (db : DB) (pks : List Nat) :
    (∀ b, b ∈ (bulk_delete db pks none).books ↔ b ∈ db.books ∧ b.id ∉ pks) ∧
    (∀ e, e ∈ (bulk_delete db pks none).logEntries ↔
      e ∈ db.logEntries ∧
        ∀ pk ∈ pks, ¬(e.contentType = "book" ∧ e.objectId = toString pk)) ∧
    (∀ l, l ∈ (bulk_delete db pks none).bookAuthors ↔
      l ∈ db.bookAuthors ∧ l.bookId ∉ pks) ∧
    ((bulk_delete db pks none).categories = db.categories ∧
      (bulk_delete db pks none).authors = db.authors) ∧
    (∀ k, bulk_delete db pks (some k) = db) := by
  have hsplit : bulk_delete db pks none =
      { applySteps (cleanupSteps pks) db with
        books := (applySteps (cleanupSteps pks) db).books.filter
          (fun b => !(pks.contains b.id)) } := by
    unfold bulk_delete runAtomic bulkDeleteSteps
    rw [applySteps_append]
    rfl
  refine ⟨?_, ?_, ?_, ?_, fun k => rfl⟩
  · intro b
    rw [hsplit]
    simp only [List.mem_filter, (cleanup_books_eq pks db).1]
    simp
  · intro e
    rw [hsplit]
    exact cleanup_logEntries_mem pks db e
  · intro l
    rw [hsplit]
    exact cleanup_bookAuthors_mem pks db l
  · rw [hsplit]
    exact ⟨(cleanup_books_eq pks db).2.1, (cleanup_books_eq pks db).2.2⟩

/-- Book.objects lookup by primary key, as the detail view resolves its
object. -/
def findBook (db : DB) (pk : Nat) : Option BookRow :=
  db.books.find? (fun b => b.id == pk)

/-- Modelled from the spec: BookDetailView (src/books/views.py) delegates
DELETE to the framework's generic destroy — resolve the object, NotFound when
no row has the id, otherwise run the instance delete, which is the overridden
Book.delete. -/
def apiDeleteBook (db : DB) (pk : Nat) : ApiDeleteResult × DB :=
  match findBook db pk with
  | none => (ApiDeleteResult.notFound, db)
  | some _ => (ApiDeleteResult.noContent, book_delete db pk none)

theorem findBook_eq_none_iff (db : DB) (pk : Nat) :
    findBook db pk = none ↔ ∀ b ∈ db.books, b.id ≠ pk := by
  simp [findBook, List.find?_eq_none]

theorem findCategory_eq_none_iff (db : DB) (cid : Nat) :
    findCategory db cid = none ↔ ∀ c ∈ db.categories, c.id ≠ cid := by
  simp [findCategory, List.find?_eq_none]

/-- C9. A DELETE for an id with no row — including an id whose row was just
deleted — yields NotFound and leaves the state exactly as it was, for Books and
for Categories; it never silently succeeds and never deletes anything. -/
theorem delete_missing_id_notFound (db : DB) (pk : Nat) :
    ((∀ b ∈ db.books, b.id ≠ pk) →
      apiDeleteBook db pk = (ApiDeleteResult.notFound, db)) ∧
    ((∀ c ∈ db.categories, c.id ≠ pk) →
      apiDeleteCategory db pk = (ApiDeleteResult.notFound, db)) ∧
    ((apiDeleteBook db pk).1 = ApiDeleteResult.noContent →
      apiDeleteBook (apiDeleteBook db pk).2 pk =
        (ApiDeleteResult.notFound, (apiDeleteBook db pk).2)) := by
  refine ⟨?_, ?_, ?_⟩
  · intro h
    unfold apiDeleteBook
    rw [(findBook_eq_none_iff db pk).mpr h]
  · intro h
    unfold apiDeleteCategory
    rw [(findCategory_eq_none_iff db pk).mpr h]
  · intro hok
    cases hx : findBook db pk with
    | none =>
      unfold apiDeleteBook at hok
      rw [hx] at hok
      simp at hok
    | some x =>
      have h2 : (apiDeleteBook db pk).2 = book_delete db pk none := by
        unfold apiDeleteBook
        rw [hx]
      have hgone : ∀ b ∈ (book_delete db pk none).books, b.id ≠ pk := by
        intro b hb
        exact (((book_delete_atomic_spec db pk).2.2.2.1 b).mp hb).2
      have := (findBook_eq_none_iff (book_delete db pk none) pk).mpr hgone
      rw [h2]
      unfold apiDeleteBook
      rw [this]

/-- A state with one Category (Fiction, id 1) and one Book referencing it. -/
def fictionDB : DB :=
  { categories := [{ id := 1, name := "Fiction" }],
    authors := [],
    books := [{ id := 42, title := "Dune", isbn := "1234567890", categoryId := 1,
                stock_quantity := 3 }],
    bookAuthors := [],
    logEntries := [] }

/-- C2 counterexample: on the REST single-delete path, the delete attempt on a
Category that one Book references is not rejected by a referencing-count check
reporting data — it surfaces as the storage foreign-key ProtectedError,
contradicting the claim as stated for that path. -/
theorem api_category_delete_surfaces_fk_error :
    0 < countReferencing fictionDB 1 ∧
    apiDeleteCategory fictionDB 1 = (ApiDeleteResult.storeFKError, fictionDB) := by
  constructor
  · decide
  · decide

/-- C2 witness: the amended theorem applied to the concrete referenced
Category. -/
theorem category_delete_blocked_all_paths_witness :
    (category_delete_model fictionDB { id := 1, name := "Fiction" }).2 = fictionDB :=
  (category_delete_blocked_all_paths fictionDB { id := 1, name := "Fiction" }
    (by decide)).1.1

/-- The validated payload of BookSerializer.validate: a field is none when the
key is absent from the submission. -/
structure BookInput where
  authors : Option (List Nat)
  category : Option Nat
deriving DecidableEq

/-- BookSerializer.validate (src/books/serializers.py), the cross-field pass:
an authors key present with an empty list raises the authors error, then a
missing category key raises the category error; otherwise the data passes
through unchanged. -/
def validate (data : BookInput) : Except (String × String) BookInput :=
  if data.authors == some [] then
    Except.error ("authors", "At least one author is required.")
  else if data.category == none then
    Except.error ("category", "Category is required.")
  else Except.ok data

/-- C8. A submission whose authors set is present and empty is rejected with
the at-least-one-author error, and whatever survives validation is the
unchanged submission with an authors set that is not the empty set — so no
validated Book submission carries an empty author set. -/
theorem validate_rejects_empty_authors (data : BookInput) :
    (data.authors = some [] →
      validate data =
        Except.error ("authors", "At least one author is required.")) ∧
    (∀ out, validate data = Except.ok out → out = data ∧ out.authors ≠ some []) := by
  constructor
  · intro h
    unfold validate
    simp [h]
  · intro out hok
    unfold validate at hok
    cases ha : (data.authors == some []) with
    | true => simp [ha] at hok
    | false =>
      rw [ha] at hok
      simp only [Bool.false_eq_true, if_false] at hok
      cases hc : (data.category == none) with
      | true => simp [hc] at hok
      | false =>
        rw [hc] at hok
        simp only [Bool.false_eq_true, if_false, Except.ok.injEq] at hok
        subst hok
        exact ⟨rfl, by simpa using ha⟩

/-- low_stock_books (src/books/views.py):
Book.objects.filter(stock_quantity__lte=5). -/
def low_stock_books (db : DB) : List BookRow :=
  db.books.filter (fun b => decide (b.stock_quantity ≤ 5))

/-- BookSerializer.get_stock_status (src/books/serializers.py). -/
def get_stock_status (b : BookRow) : String :=
  if b.stock_quantity == 0 then "Out of Stock"
  else if b.stock_quantity ≤ 5 then "Low Stock"
  else "In Stock"

/-- BookListSerializer.get_stock_status (src/books/serializers.py): the same
rule, restated in the source. -/
def bookList_get_stock_status (b : BookRow) : String :=
  if b.stock_quantity == 0 then "Out of Stock"
  else if b.stock_quantity ≤ 5 then "Low Stock"
  else "In Stock"

/-- C10. The low-stock query returns exactly the books whose stock is at most 5
(zero included), and both serializers label a book Out of Stock iff its stock
is 0, Low Stock iff it is between 1 and 5, and In Stock iff it exceeds 5. -/
theorem low_stock_and_status_spec (db : DB) (b : BookRow) :
    (b ∈ low_stock_books db ↔ b ∈ db.books ∧ b.stock_quantity ≤ 5) ∧
    (get_stock_status b = "Out of Stock" ↔ b.stock_quantity = 0) ∧
    (get_stock_status b = "Low Stock" ↔
      1 ≤ b.stock_quantity ∧ b.stock_quantity ≤ 5) ∧
    (get_stock_status b = "In Stock" ↔ 5 < b.stock_quantity) ∧
    bookList_get_stock_status b = get_stock_status b := by
  refine ⟨by simp [low_stock_books, List.mem_filter], ?_, ?_, ?_, rfl⟩ <;>
  · unfold get_stock_status
    by_cases h0 : b.stock_quantity = 0
    · simp [h0]
    · have h0' : (b.stock_quantity == 0) = false := by simpa using h0
      rw [h0']
      simp only [Bool.false_eq_true, if_false]
      by_cases h5 : b.stock_quantity ≤ 5
      · rw [if_pos h5]
        simp <;> omega
      · rw [if_neg h5]
        simp <;> omega

end BookMgmt
